import Mathlib

/-!
Shallow embedding of the semantic segmentation engine of the
`statement_extractor` repository (src/src/segmenter.py, src/statementExtractor.py,
src/src/utils/text_sanitizer.py), together with theorems settling the frozen
claims about it.

External collaborators (spacy token embedding, nltk tokenizers, the sklearn
CountVectorizer analyzer and the textsplit combinatorial segmentation library)
are represented by function parameters, and where a claim depends on their
contract the contract is taken from the specification and stated as an explicit
hypothesis or a modelled definition, marked in the doc comment.
-/

/-- Python exception classes that the embedded code can raise. -/
inductive PyErr where
  | valueError
  | keyError
  | typeError
deriving DecidableEq, Repr

/-- An embedding vector.  The floating point components of the source are
modelled as integers; no claim depends on real-number arithmetic, only on
componentwise equality, zero and weighted sums. -/
abbrev Vec := List Int

/-- One output record of `split_segments` (src/src/segmenter.py:188-193):
a dict with keys segment_id and sentence. -/
structure SegRecord where
  segment_id : Nat
  sentence : String
deriving DecidableEq, Repr

/-- One row of the table built by `create_segments`
(src/statementExtractor.py:57-72): the dict of a segment record, or of a bare
sentence when length is at most 1 (then it has no segment_id key), extended
with the passage_id attached by the caller. -/
structure DocRow where
  segment_id : Option Nat
  sentence : String
  passage_id : Nat
deriving DecidableEq, Repr

/-- Python `s.split(sep)` for a one-character separator `sep`, on the
character list of the string: splitting at every occurrence, keeping empty
pieces, and returning one piece even for the empty input. -/
def pySplitChar (sep : Char) : List Char → List (List Char)
  | [] => [[]]
  | c :: rest =>
    match pySplitChar sep rest with
    | [] => [[]]
    | w :: ws => if c = sep then [] :: w :: ws else (c :: w) :: ws

/-- The whitespace class of Python `str.strip()` (space, tab, newline,
carriage return, vertical tab, form feed). -/
def pyWs (c : Char) : Bool :=
  c == ' ' || c == '\t' || c == '\n' || c == '\r' || c == '\x0b' || c == '\x0c'

/-- Python `str.strip()` on a character list: drop leading and trailing
whitespace. -/
def trimChars (l : List Char) : List Char :=
  ((l.dropWhile pyWs).reverse.dropWhile pyWs).reverse

/-- Python `str.strip()` on strings. -/
def pyStrip (s : String) : String :=
  String.mk (trimChars s.data)

/-- Python `re.sub(" +", " ", _)`: collapse every run of spaces to a single
space. -/
def squeezeSpaces : List Char → List Char
  | [] => []
  | c :: rest =>
    match squeezeSpaces rest with
    | [] => [c]
    | d :: ds => if c = ' ' ∧ d = ' ' then d :: ds else c :: d :: ds

/-- Python `str.replace(p, "")` for a two-character pattern `[c1, c2]`:
remove every (left-to-right, non-overlapping) occurrence. -/
def removePair (c1 c2 : Char) : List Char → List Char
  | [] => []
  | [c] => [c]
  | a :: b :: rest =>
    if a = c1 ∧ b = c2 then removePair c1 c2 rest
    else a :: removePair c1 c2 (b :: rest)

/-- `sanetize` from src/src/utils/text_sanitizer.py:8-23: delete newline
characters, strip, collapse space runs, delete the two-character sequence
of U+F075 followed by a space. -/
def sanetize (text : String) : String :=
  let t1 := text.data.filter (fun c => c != '\n')
  let t2 := trimChars t1
  let t3 := squeezeSpaces t2
  String.mk (removePair (Char.ofNat 0xf075) ' ' t3)

/-- The word count used by `split_sentences` (src/src/segmenter.py:157):
`len(sentence.split(" "))`, which counts pieces between single spaces,
including empty pieces. -/
def countWordsPy (s : String) : Nat :=
  (pySplitChar ' ' s.data).length

/-- `split_sentences` from src/src/segmenter.py:144-159.  The external
`sent_tokenize` of nltk is the parameter `sentTok`; the function keeps, in
order, the sentences whose space-split length is not below the minimum, and
appends each kept sentence stripped. -/
def split_sentences (sentTok : String → List String) (text : String)
    (min_sentence_lenghth : Nat) : List String :=
  ((sentTok text).filter
    (fun sentence => decide (¬ countWordsPy sentence < min_sentence_lenghth))).map pyStrip

/-- `_get_save_vector` from src/src/segmenter.py:42-55.  `nlp` is the spacy
embedding oracle, `showV` models Python `str` applied to a numpy vector (the
source compares `str(vector) != str(BAD_VECTOR)`); `nlp "hrgenbrmpf"` is the
sentinel BAD_VECTOR of line 58. -/
def _get_save_vector (nlp : String → Vec) (showV : Vec → String)
    (token : String) : Option Vec :=
  let vector := nlp token
  if showV vector ≠ showV (nlp "hrgenbrmpf") then some vector else none

/-- `get_embeddings` from src/src/segmenter.py:32-67.  `tok` is nltk
`word_tokenize`; the Python `list(set(...))` deduplication is modelled by
`List.dedup` (the set's iteration order is unspecified, and no claim depends
on the order).  When the token list is empty the source raises: pandas
`pd.DataFrame([])` has no column `0`, so `word_vectors[0]` at line 62 raises
KeyError.  Otherwise the rows whose vector is the sentinel are dropped
(`dropna`) and the surviving (token, vector) pairs are returned. -/
def get_embeddings (tok : String → List String) (nlp : String → Vec)
    (showV : Vec → String) (text : String) :
    Except PyErr (List (String × Vec)) :=
  let vocabulary := (tok text).dedup
  if vocabulary.isEmpty then
    Except.error PyErr.keyError
  else
    Except.ok (vocabulary.filterMap
      (fun t => (_get_save_vector nlp showV t).map (fun v => (t, v))))

/-- Multiply a vector by a token count. -/
def vecScale (n : Nat) (v : Vec) : Vec :=
  v.map (fun x => (n : Int) * x)

/-- Componentwise sum of two vectors (of equal dimension in the source). -/
def vecAdd (a b : Vec) : Vec :=
  List.zipWith (fun x y => x + y) a b

/-- The all-zero vector of dimension d. -/
def zeroVec (d : Nat) : Vec :=
  List.replicate d 0

/-- The vector of one sentence as computed by
`vecr.transform(sentenced_text).dot(list(word_vectors["vec"].to_numpy()))`
(src/src/segmenter.py:82): the sum over the vocabulary of each token's vector
weighted by the count of that token in the analyzed sentence.  `analyze`
models the CountVectorizer analyzer (tokenization applied per sentence). -/
def sentVec (analyze : String → List String) (word_vectors : List (String × Vec))
    (sentence : String) : Vec :=
  word_vectors.foldl
    (fun acc tv => vecAdd acc (vecScale ((analyze sentence).count tv.1) tv.2))
    (zeroVec ((word_vectors.head?.map (fun tv => tv.2.length)).getD 0))

/-- `get_sentence_embeddings` from src/src/segmenter.py:70-83.  The sklearn
CountVectorizer validates a user-supplied vocabulary on first use: an empty
vocabulary raises ValueError (message: empty vocabulary passed to fit), and a
duplicate term raises ValueError as well; otherwise `transform(...).dot(...)`
produces one vector per sentence, in input order. -/
def get_sentence_embeddings (analyze : String → List String)
    (sentenced_text : List String) (word_vectors : List (String × Vec)) :
    Except PyErr (List Vec) :=
  if word_vectors.isEmpty then
    Except.error PyErr.valueError
  else if ¬ (word_vectors.map Prod.fst).Nodup then
    Except.error PyErr.valueError
  else
    Except.ok (sentenced_text.map (sentVec analyze word_vectors))

/-- The external textsplit library (imported at src/src/segmenter.py:21-26),
abstracted at its interface: the numeric penalty it derives from the sentence
vectors and target length, the splits of `split_optimal(docmat, penalty,
seg_limit)`, and the splits of `split_greedy(docmat, max_splits)`. -/
structure TextsplitLib where
  penaltyOf : List Vec → Nat → Int
  splitOpt : List Vec → Int → Nat → List Nat
  splitGreedy : List Vec → Nat → List Nat

/-- Modelled from the spec: `get_penalty` of the external textsplit library is
not part of this repository; per the specification's failure mode, the
Segmentation Optimizer signals an insufficient-input condition (a ValueError)
when the sentence count is too small relative to the requested segment length
for a multi-segment partition, i.e. when fewer than one average segment fits
(`int(n / segment_len) < 1`); otherwise it produces the scalar penalty,
abstracted here as the oracle `lib.penaltyOf`. -/
def get_penalty (lib : TextsplitLib) (docmat : List Vec) (segment_len : Nat) :
    Except PyErr Int :=
  if 1 ≤ docmat.length / segment_len then
    Except.ok (lib.penaltyOf docmat segment_len)
  else
    Except.error PyErr.valueError

/-- Modelled from the spec: `get_segments` of the external textsplit library
is not part of this repository; per the specification's Segment Assembler
contract, each segment is the ordered sub-list of sentences between
consecutive split points, the first segment starting at 0 and the last one
ending at the sentence count (Python slice semantics). -/
def get_segments (text_particles : List String) (splits : List Nat) :
    List (List String) :=
  (List.zip (0 :: splits) (splits ++ [text_particles.length])).map
    (fun be => (text_particles.drop be.1).take (be.2 - be.1))

/-- Proof helper for `get_segments`: the slices of the list between
consecutive cut points, starting from position a. -/
def sliceAux (l : List String) : Nat → List Nat → List (List String)
  | _, [] => []
  | a, b :: rest => (l.drop a).take (b - a) :: sliceAux l b rest

/-- Proof helper: the last cut point of a list of cut points, with default d
(the fold of taking the trailing element). -/
def lastCut (d : Nat) : List Nat → Nat
  | [] => d
  | c :: rest => lastCut c rest

/-- `make_segments` from src/src/segmenter.py:86-141.  DEBUG is False in
config.py, so the debug-only printing and plotting is omitted; the greedy
segmentation is computed (when `greedy or DEBUG`) with
`max_splits = len(optimal_segmentation.splits)` and is returned only when
`greedy` is set, otherwise the optimal segmentation is returned. -/
def make_segments (lib : TextsplitLib) (sentence_vectors : List Vec)
    (sentenced_text : List String) (segment_len : Nat) (seg_limit : Nat)
    (greedy : Bool) : Except PyErr (List (List String)) :=
  match get_penalty lib sentence_vectors segment_len with
  | Except.error e => Except.error e
  | Except.ok penalty =>
    let optimal_segmentation := lib.splitOpt sentence_vectors penalty seg_limit
    let segmented_text := get_segments sentenced_text optimal_segmentation
    if greedy then
      let greedy_segmentation :=
        lib.splitGreedy sentence_vectors optimal_segmentation.length
      Except.ok (get_segments sentenced_text greedy_segmentation)
    else
      Except.ok segmented_text

/-- The inner loop of the flattening at src/src/segmenter.py:185-194, for one
segment: `segment_id = 0` on entry, one record appended per sentence, and
`segment_id += 1` after each sentence (so the counter is a per-sentence index
inside the segment). -/
def assembleSeg (segment : List String) (segment_id : Nat) : List SegRecord :=
  match segment with
  | [] => []
  | sentence :: rest =>
    SegRecord.mk segment_id sentence :: assembleSeg rest (segment_id + 1)

/-- The flattening loop of src/src/segmenter.py:184-195: for each segment,
reset the counter to 0 and emit the segment's records in order. -/
def assemble (segments : List (List String)) : List SegRecord :=
  match segments with
  | [] => []
  | segment :: rest => assembleSeg segment 0 ++ assemble rest

/-- `split_segments` from src/src/segmenter.py:162-195.  The text is
sanitized (twice in the source, with identical result), the vocabulary is
embedded from the sanitized full text, sentences are split with minimum word
count 3, sentence vectors are computed, and `make_segments` is called with
`segment_len=5` and the defaults `seg_limit=250`, `greedy=False` inside a
try; only a ValueError is caught, with `[sentences]` as fallback.  The
records are then flattened by `assemble`. -/
def split_segments (tok sentTok analyze : String → List String)
    (nlp : String → Vec) (showV : Vec → String) (lib : TextsplitLib)
    (text : String) : Except PyErr (List SegRecord) :=
  match get_embeddings tok nlp showV (sanetize text) with
  | Except.error e => Except.error e
  | Except.ok word_vectors =>
    match get_sentence_embeddings analyze
        (split_sentences sentTok (sanetize text) 3) word_vectors with
    | Except.error e => Except.error e
    | Except.ok sentence_vectors =>
      match make_segments lib sentence_vectors
          (split_sentences sentTok (sanetize text) 3) 5 250 false with
      | Except.ok segments => Except.ok (assemble segments)
      | Except.error PyErr.valueError =>
        Except.ok (assemble [split_sentences sentTok (sanetize text) 3])
      | Except.error e => Except.error e

/-- The call `segmenter.split_segments(passage.get("text"), segment_len=length)`
at src/statementExtractor.py:62.  `split_segments`
(src/src/segmenter.py:162) accepts only the positional `text` parameter, so
Python raises TypeError for the unexpected keyword argument `segment_len`
before any code of the callee runs. -/
def split_segments_kwcall (text : String) (segment_len : Nat) :
    Except PyErr (List SegRecord) :=
  Except.error PyErr.typeError

/-- The passage loop of `create_segments` (src/statementExtractor.py:57-71),
with the running passage_id as an argument.  A passage is modelled by its
text (the only field the loop reads). -/
def create_segments_go (sentTok : String → List String) (length : Nat) :
    List String → Nat → Except PyErr (List DocRow)
  | [], _ => Except.ok []
  | passage :: rest, passage_id =>
    match (if 1 < length then
            (split_segments_kwcall passage length).map
              (fun segs => segs.map
                (fun r => DocRow.mk (some r.segment_id) r.sentence passage_id))
          else
            Except.ok ((split_sentences sentTok passage 3).map
              (fun s => DocRow.mk none s passage_id))) with
    | Except.error e => Except.error e
    | Except.ok rows =>
      match create_segments_go sentTok length rest (passage_id + 1) with
      | Except.error e => Except.error e
      | Except.ok more => Except.ok (rows ++ more)

/-- `create_segments` from src/statementExtractor.py:46-73: iterate the
passages with passage_id starting at 0. -/
def create_segments (sentTok : String → List String) (passages : List String)
    (length : Nat) : Except PyErr (List DocRow) :=
  create_segments_go sentTok length passages 0

/-- Concrete word tokenizer for witnesses: split on single spaces, empty
text giving no tokens (as nltk word_tokenize does on the empty string). -/
def tokW : String → List String :=
  fun s => if s.data.isEmpty then [] else (pySplitChar ' ' s.data).map String.mk

/-- Concrete sentence tokenizer for witnesses: split on the exclamation
mark. -/
def sentTokE : String → List String :=
  fun s => (pySplitChar '!' s.data).map String.mk

/-- Concrete CountVectorizer analyzer for witnesses: no tokens at all (every
count is zero). -/
def analyzeE : String → List String :=
  fun _ => []

/-- Concrete embedding oracle for witnesses: the one-component vector holding
the length of the token; the sentinel token hrgenbrmpf has length 10. -/
def nlpLen : String → Vec :=
  fun t => [(t.data.length : Int)]

/-- Concrete embedding oracle for witnesses mapping every token, and the
sentinel string, to the same vector, so that every token is dropped. -/
def nlpZeroV : String → Vec :=
  fun _ => []

/-- Concrete string rendering of a vector for witnesses: one character per
component. -/
def showVI : Vec → String :=
  fun v => String.mk (v.map (fun i => Char.ofNat i.toNat))

/-- Concrete textsplit oracle for witnesses: penalty 0 and no splits. -/
def libZero : TextsplitLib :=
  TextsplitLib.mk (fun _ _ => 0) (fun _ _ _ => []) (fun _ _ => [])

/-- Concrete penalty oracle for the make_segments witnesses. -/
def pzW : List Vec → Nat → Int :=
  fun _ _ => 0

/-- Concrete optimal-split oracle for the make_segments witnesses: one split
at position 1. -/
def ozW : List Vec → Int → Nat → List Nat :=
  fun _ _ _ => [1]

/-- Concrete greedy-split oracle for the make_segments witnesses: no
splits. -/
def gzA : List Vec → Nat → List Nat :=
  fun _ _ => []

/-- A second greedy-split oracle, different from gzA, for the
non-interference part of the make_segments witnesses. -/
def gzB : List Vec → Nat → List Nat :=
  fun _ m => List.replicate m 0

/-- Concrete word tokenizer for the vocabulary-invariant witness: a duplicated
token plus the sentinel string itself. -/
def tokC3 : String → List String :=
  fun _ => ["ab", "ab", "hrgenbrmpf"]

deriving instance DecidableEq for Except

theorem assembleSeg_map_sentence (segment : List String) :
    ∀ k, (assembleSeg segment k).map (fun r => r.sentence) = segment := by
  induction segment with
  | nil => intro k; rfl
  | cons s rest ih => intro k; simp [assembleSeg, ih]

theorem assemble_map_sentence (segments : List (List String)) :
    (assemble segments).map (fun r => r.sentence) = segments.flatten := by
  induction segments with
  | nil => rfl
  | cons seg rest ih => simp [assemble, assembleSeg_map_sentence, ih]

theorem zip_slices_eq_sliceAux (l : List String) (splits : List Nat) :
    ∀ a, (List.zip (a :: splits) (splits ++ [l.length])).map
        (fun be => (l.drop be.1).take (be.2 - be.1))
      = sliceAux l a (splits ++ [l.length]) := by
  induction splits with
  | nil => intro a; simp [sliceAux]
  | cons b rest ih =>
    intro a
    simp only [List.cons_append, List.zip_cons_cons, List.map_cons, sliceAux]
    rw [ih b]
    rfl

theorem chain_le_lastCut (a : Nat) (cs : List Nat)
    (h : List.Chain (· ≤ ·) a cs) : a ≤ lastCut a cs := by
  induction cs generalizing a with
  | nil => simp [lastCut]
  | cons b rest ih =>
    rw [List.chain_cons] at h
    exact le_trans h.1 (ih b h.2)

theorem join_sliceAux (l : List String) (cs : List Nat) :
    ∀ a, List.Chain (· ≤ ·) a cs →
      (sliceAux l a cs).flatten = (l.drop a).take (lastCut a cs - a) := by
  induction cs with
  | nil => intro a _; simp [sliceAux, lastCut]
  | cons b rest ih =>
    intro a h
    rw [List.chain_cons] at h
    have hab : a ≤ b := h.1
    have hbl : b ≤ lastCut b rest := chain_le_lastCut b rest h.2
    simp only [sliceAux, List.flatten_cons, lastCut]
    rw [ih b h.2]
    have hdrop : l.drop b = (l.drop a).drop (b - a) := by
      rw [List.drop_drop]
      congr 1
      omega
    rw [hdrop, ← List.take_add]
    congr 1
    omega

theorem chain_of_chain_le_bounded (L : Nat) :
    ∀ (a : Nat) (splits : List Nat), List.Chain' (· ≤ ·) (a :: splits) →
      (∀ x ∈ a :: splits, x ≤ L) →
      List.Chain (· ≤ ·) a (splits ++ [L]) := by
  intro a splits
  induction splits generalizing a with
  | nil =>
    intro _ hle
    simpa [List.chain_cons] using hle a (by simp)
  | cons b rest ih =>
    intro hch hle
    rw [List.chain'_cons] at hch
    simp only [List.cons_append, List.chain_cons]
    exact ⟨hch.1, ih b hch.2 (fun x hx => hle x (List.mem_cons_of_mem a hx))⟩

theorem lastCut_append_singleton (y : Nat) :
    ∀ (xs : List Nat) (d : Nat), lastCut d (xs ++ [y]) = y := by
  intro xs
  induction xs with
  | nil => intro d; simp [lastCut]
  | cons x rest ih => intro d; simpa [lastCut] using ih x

theorem join_get_segments (l : List String) (splits : List Nat)
    (hch : List.Chain' (· ≤ ·) splits) (hle : ∀ x ∈ splits, x ≤ l.length) :
    (get_segments l splits).flatten = l := by
  have he : get_segments l splits = sliceAux l 0 (splits ++ [l.length]) :=
    zip_slices_eq_sliceAux l splits 0
  rw [he]
  have hchain : List.Chain (· ≤ ·) 0 (splits ++ [l.length]) := by
    cases splits with
    | nil => simp [List.chain_cons]
    | cons s rest =>
      simp only [List.cons_append, List.chain_cons]
      refine ⟨Nat.zero_le s, ?_⟩
      have : List.Chain (· ≤ ·) s (rest ++ [l.length]) :=
        chain_of_chain_le_bounded l.length s rest hch hle
      simpa using this
  rw [join_sliceAux l (splits ++ [l.length]) 0 hchain]
  rw [lastCut_append_singleton l.length splits 0]
  simp

theorem filterMap_pair_keys_sublist (f : String → Option Vec) (l : List String) :
    List.Sublist
      ((l.filterMap (fun t => (f t).map (fun v => (t, v)))).map Prod.fst) l := by
  induction l with
  | nil => simp
  | cons t rest ih =>
    cases hf : f t with
    | none =>
      simp only [List.filterMap_cons, hf, Option.map_none']
      exact ih.cons t
    | some v =>
      simp only [List.filterMap_cons, hf, Option.map_some', List.map_cons]
      exact ih.cons₂ t

theorem get_embeddings_ok_eq (tok : String → List String) (nlp : String → Vec)
    (showV : Vec → String) (text : String) (wv : List (String × Vec))
    (h : get_embeddings tok nlp showV text = Except.ok wv) :
    wv = ((tok text).dedup).filterMap
      (fun t => (_get_save_vector nlp showV t).map (fun v => (t, v))) := by
  unfold get_embeddings at h
  by_cases hempty : ((tok text).dedup).isEmpty
  · rw [if_pos hempty] at h
    exact absurd h (by simp)
  · rw [if_neg hempty] at h
    exact (Except.ok.inj h).symm

theorem get_embeddings_keys_nodup (tok : String → List String)
    (nlp : String → Vec) (showV : Vec → String) (text : String)
    (wv : List (String × Vec))
    (h : get_embeddings tok nlp showV text = Except.ok wv) :
    (wv.map Prod.fst).Nodup := by
  rw [get_embeddings_ok_eq tok nlp showV text wv h]
  exact (filterMap_pair_keys_sublist _ _).nodup (List.nodup_dedup _)

theorem vecAdd_all_zero : ∀ (a b : Vec), (∀ x ∈ a, x = 0) → (∀ x ∈ b, x = 0) →
    ∀ x ∈ vecAdd a b, x = 0 := by
  intro a
  induction a with
  | nil => intro b _ _ x hx; simp [vecAdd] at hx
  | cons y rest ih =>
    intro b ha hb x hx
    cases b with
    | nil => simp [vecAdd] at hx
    | cons z bs =>
      simp only [vecAdd, List.zipWith_cons_cons] at hx
      rcases List.mem_cons.1 hx with h1 | h2
      · rw [h1, ha y (by simp), hb z (by simp)]
        ring
      · exact ih bs (fun u hu => ha u (List.mem_cons_of_mem _ hu))
          (fun u hu => hb u (List.mem_cons_of_mem _ hu)) x h2

theorem sentVec_fold_zero (analyze : String → List String) (s : String) :
    ∀ (l : List (String × Vec)) (acc : Vec),
      (∀ tv ∈ l, (analyze s).count tv.1 = 0) → (∀ x ∈ acc, x = 0) →
      ∀ x ∈ l.foldl
        (fun acc tv => vecAdd acc (vecScale ((analyze s).count tv.1) tv.2)) acc,
        x = 0 := by
  intro l
  induction l with
  | nil => intro acc _ hacc; simpa using hacc
  | cons tv rest ih =>
    intro acc hl hacc
    simp only [List.foldl_cons]
    refine ih _ (fun u hu => hl u (List.mem_cons_of_mem _ hu)) ?_
    have h0 : (analyze s).count tv.1 = 0 := hl tv (by simp)
    rw [h0]
    refine vecAdd_all_zero acc _ hacc ?_
    intro x hx
    rcases List.mem_map.1 hx with ⟨y, _, hy⟩
    rw [← hy]
    simp

theorem sentVec_all_zero (analyze : String → List String)
    (word_vectors : List (String × Vec)) (s : String)
    (hc : ∀ tv ∈ word_vectors, (analyze s).count tv.1 = 0) :
    ∀ x ∈ sentVec analyze word_vectors s, x = 0 := by
  unfold sentVec
  refine sentVec_fold_zero analyze s word_vectors _ hc ?_
  intro x hx
  exact (List.eq_of_mem_replicate hx)

/-- C1: the claim states that all sentences of the first segment carry
segment_id 0, all sentences of the second segment carry segment_id 1, and so
on.  The code instead resets the counter to 0 at the start of every segment
and increments it after every sentence (src/src/segmenter.py:185-194), so the
stored value is the sentence's index inside its segment.  On a passage whose
two sentences form a single segment, the two records of that one segment get
segment_id 0 and 1, not 0 and 0: the first conjunct evaluates the flattening
loop on the single segment, the second evaluates the full `split_segments`
pipeline on such a passage. -/
theorem c1_segment_id_counts_sentences :
    assemble [["ab cd ef", "gh ij kl"]]
      = [SegRecord.mk 0 "ab cd ef", SegRecord.mk 1 "gh ij kl"]
    ∧ split_segments tokW sentTokE analyzeE nlpLen showVI libZero
        "ab cd ef!gh ij kl!"
      = Except.ok [SegRecord.mk 0 "ab cd ef", SegRecord.mk 1 "gh ij kl"] :=
  ⟨rfl, rfl⟩

/-- C3: for every tokenizer, embedder, vector rendering and text, a
successfully built vocabulary has pairwise distinct token keys, and no token
whose embedding vector is componentwise identical to the sentinel vector
(the embedder's response to the fixed nonsense string) appears among its
keys. -/
theorem c3_vocabulary_invariant (tok : String → List String)
    (nlp : String → Vec) (showV : Vec → String) (text : String)
    (wv : List (String × Vec))
    (h : get_embeddings tok nlp showV text = Except.ok wv) :
    (wv.map Prod.fst).Nodup
    ∧ ∀ t, nlp t = nlp "hrgenbrmpf" → t ∉ wv.map Prod.fst := by
  refine ⟨get_embeddings_keys_nodup tok nlp showV text wv h, ?_⟩
  intro t hsent hmem
  rw [get_embeddings_ok_eq tok nlp showV text wv h] at hmem
  rcases List.mem_map.1 hmem with ⟨⟨t', v⟩, hin, hfst⟩
  rcases List.mem_filterMap.1 hin with ⟨u, _, hu⟩
  unfold _get_save_vector at hu
  by_cases hc : showV (nlp u) ≠ showV (nlp "hrgenbrmpf")
  · rw [if_pos hc] at hu
    simp only [Option.map_some'] at hu
    have hut : u = t := by
      have := congrArg Prod.fst (Option.some.inj hu)
      simpa [hfst] using this.trans hfst
    exact hc (by rw [hut, hsent])
  · rw [if_neg hc] at hu
    simp at hu

/-- C3 witness: on a concrete tokenizer producing a duplicate token and the
sentinel string itself, `get_embeddings` succeeds, and the sentinel-vector
token is not a key of the result. -/
theorem c3_vocabulary_invariant_witness :
    get_embeddings tokC3 nlpLen showVI "z"
      = Except.ok [("ab", ([2] : Vec))]
    ∧ "hrgenbrmpf" ∉ ([("ab", ([2] : Vec))].map Prod.fst) := by
  refine ⟨by decide, ?_⟩
  exact (c3_vocabulary_invariant tokC3 nlpLen showVI "z"
    [("ab", [2])] (by decide)).2 "hrgenbrmpf" rfl

/-- C9: the optimizer path is deterministic: evaluating `make_segments` (and
the full `split_segments` pipeline) twice on the same oracles, sentence
vectors, sentence list and target segment length yields identical results.
The embedding is a pure function of its inputs, as the source is: the only
nondeterminism could come from the external library oracles, which the
specification requires to be deterministic. -/
theorem c9_deterministic (lib : TextsplitLib) (v : List Vec)
    (s : List String) (len lim : Nat) (g : Bool)
    (tok sentTok analyze : String → List String) (nlp : String → Vec)
    (showV : Vec → String) (text : String) :
    make_segments lib v s len lim g = make_segments lib v s len lim g
    ∧ split_segments tok sentTok analyze nlp showV lib text
      = split_segments tok sentTok analyze nlp showV lib text :=
  ⟨rfl, rfl⟩

/-- C10: for every non-empty passage list and every length greater than 1,
`create_segments` hits the TypeError of the keyword-argument call
`split_segments(passage.get("text"), segment_len=length)` on the very first
passage and returns no row. -/
theorem c10_create_segments_type_error (sentTok : String → List String)
    (passages : List String) (length : Nat)
    (hne : passages ≠ []) (hlen : 1 < length) :
    create_segments sentTok passages length = Except.error PyErr.typeError := by
  cases passages with
  | nil => exact absurd rfl hne
  | cons p rest =>
    simp [create_segments, create_segments_go, split_segments_kwcall,
      if_pos hlen, Except.map]

/-- C10 witness: one concrete passage and length 2. -/
theorem c10_create_segments_type_error_witness :
    create_segments sentTokE ["ab"] 2 = Except.error PyErr.typeError :=
  c10_create_segments_type_error sentTokE ["ab"] 2 (by decide) (by decide)

/-- C7: the production result of `make_segments` never depends on the greedy
oracle (first conjunct: changing `split_greedy` cannot change the result when
greedy mode is not requested); when the penalty computation succeeds, the
non-greedy call returns the optimal segmentation's segments and the greedy
call returns the segments of the greedy splits computed with
`max_splits = len(optimal_segmentation.splits)` (second conjunct); and
whenever the greedy oracle respects its max_splits bound, the greedy splits
used are at most as many as the optimal splits (third conjunct). -/
theorem c7_greedy_bounded_and_optional (p : List Vec → Nat → Int)
    (o : List Vec → Int → Nat → List Nat) (g g2 : List Vec → Nat → List Nat)
    (v : List Vec) (s : List String) (len lim : Nat) :
    (make_segments (TextsplitLib.mk p o g) v s len lim false
      = make_segments (TextsplitLib.mk p o g2) v s len lim false)
    ∧ (∀ pen, get_penalty (TextsplitLib.mk p o g) v len = Except.ok pen →
        make_segments (TextsplitLib.mk p o g) v s len lim false
          = Except.ok (get_segments s (o v pen lim))
        ∧ make_segments (TextsplitLib.mk p o g) v s len lim true
          = Except.ok (get_segments s (g v (o v pen lim).length)))
    ∧ ((∀ vs m, (g vs m).length ≤ m) → ∀ pen,
        (g v (o v pen lim).length).length ≤ (o v pen lim).length) := by
  refine ⟨rfl, ?_, fun hg pen => hg v _⟩
  intro pen hpen
  unfold make_segments
  rw [hpen]
  exact ⟨rfl, rfl⟩

/-- C7 witness: concrete oracles with a successfully computed penalty; the
non-greedy result ignores the greedy oracle and the greedy result is built
from the greedy splits at the optimal split count. -/
theorem c7_greedy_bounded_and_optional_witness :
    (make_segments (TextsplitLib.mk pzW ozW gzA) [[0]] ["x", "y"] 1 250 false
      = make_segments (TextsplitLib.mk pzW ozW gzB) [[0]] ["x", "y"] 1 250 false)
    ∧ make_segments (TextsplitLib.mk pzW ozW gzA) [[0]] ["x", "y"] 1 250 true
      = Except.ok (get_segments ["x", "y"] (gzA [[0]] (ozW [[0]] 0 250).length)) := by
  refine ⟨(c7_greedy_bounded_and_optional pzW ozW gzA gzB [[0]] ["x", "y"] 1 250).1, ?_⟩
  exact ((c7_greedy_bounded_and_optional pzW ozW gzA gzB [[0]] ["x", "y"] 1 250).2.1
    0 (by decide)).2

/-- C8: whenever the external sentence tokenizer emits sentences without
leading or trailing whitespace (as nltk sent_tokenize does), every sentence
returned by `split_sentences` has at least the minimum space-separated word
count, and the retained sentences are a sublist of the tokenizer output, so
they appear in their original order with the short fragments filtered out. -/
theorem c8_min_word_count_filter (sentTok : String → List String)
    (text : String) (n : Nat)
    (hstrip : ∀ s ∈ sentTok text, pyStrip s = s) :
    List.Sublist (split_sentences sentTok text n) (sentTok text)
    ∧ ∀ r ∈ split_sentences sentTok text n, n ≤ countWordsPy r := by
  have hmem : ∀ s ∈ (sentTok text).filter
      (fun s => decide (¬ countWordsPy s < n)), pyStrip s = s :=
    fun s hs => hstrip s (List.mem_of_mem_filter hs)
  have hmap : split_sentences sentTok text n
      = (sentTok text).filter (fun s => decide (¬ countWordsPy s < n)) := by
    unfold split_sentences
    calc ((sentTok text).filter (fun s => decide (¬ countWordsPy s < n))).map pyStrip
        = ((sentTok text).filter (fun s => decide (¬ countWordsPy s < n))).map id :=
          List.map_congr_left hmem
      _ = _ := List.map_id _
  constructor
  · rw [hmap]
    exact List.filter_sublist _
  · intro r hr
    rw [hmap] at hr
    have := List.of_mem_filter hr
    have hnot : ¬ countWordsPy r < n := of_decide_eq_true this
    omega

/-- C8 witness: a concrete tokenizer output with a one-word fragment in the
middle; the fragment is dropped, the rest is kept in order and meets the
minimum word count. -/
theorem c8_min_word_count_filter_witness :
    List.Sublist (split_sentences sentTokE "ab cd ef!x!gh ij kl" 3)
      (sentTokE "ab cd ef!x!gh ij kl")
    ∧ 3 ≤ countWordsPy "ab cd ef" := by
  refine ⟨(c8_min_word_count_filter sentTokE "ab cd ef!x!gh ij kl" 3 (by decide)).1, ?_⟩
  exact (c8_min_word_count_filter sentTokE "ab cd ef!x!gh ij kl" 3 (by decide)).2
    "ab cd ef" (by decide)

/-- C6 counterexample: the claim quantifies over every Vocabulary, but on the
empty Vocabulary (which the spec itself produces for empty document text) the
sentence vectorizer raises ValueError (sklearn rejects an empty supplied
vocabulary) instead of returning one vector per sentence. -/
theorem c6_empty_vocabulary_counterexample :
    (get_sentence_embeddings analyzeE ["ab cd ef"] []).isOk = false
    ∧ get_sentence_embeddings analyzeE ["ab cd ef"] []
      = Except.error PyErr.valueError :=
  ⟨rfl, rfl⟩

/-- C6 amended: for every sentence list and every non-empty Vocabulary with
pairwise distinct keys, `get_sentence_embeddings` returns exactly one vector
per input sentence in input order, and a sentence containing no token of the
Vocabulary yields the all-zero vector. -/
theorem c6_one_vector_per_sentence (analyze : String → List String)
    (sentenced_text : List String) (word_vectors : List (String × Vec))
    (h1 : word_vectors ≠ []) (h2 : (word_vectors.map Prod.fst).Nodup) :
    get_sentence_embeddings analyze sentenced_text word_vectors
      = Except.ok (sentenced_text.map (sentVec analyze word_vectors))
    ∧ (sentenced_text.map (sentVec analyze word_vectors)).length
      = sentenced_text.length
    ∧ ∀ s ∈ sentenced_text,
        (∀ tv ∈ word_vectors, (analyze s).count tv.1 = 0) →
        ∀ x ∈ sentVec analyze word_vectors s, x = 0 := by
  refine ⟨?_, List.length_map _ _, ?_⟩
  · unfold get_sentence_embeddings
    rw [if_neg (by simpa using h1), if_neg (not_not.2 h2)]
  · intro s _ hc
    exact sentVec_all_zero analyze word_vectors s hc

/-- C6 witness: a one-sentence list against a concrete non-empty vocabulary
the sentence does not use; the result is one all-zero vector. -/
theorem c6_one_vector_per_sentence_witness :
    get_sentence_embeddings tokW ["ab cd ef"] [("zz", ([3] : Vec))]
      = Except.ok [[0]] := by
  exact ((c6_one_vector_per_sentence tokW ["ab cd ef"] [("zz", [3])]
    (by decide) (by decide)).1).trans (by decide)

/-- C2 counterexample: a one-sentence text (sentence count 1, below the
requested segment length 5) on which an exception does escape to the caller
of `split_segments`: every token's vector equals the sentinel, the Vocabulary
comes out empty, and the sentence vectorizer's ValueError is raised before
the try block that guards `make_segments`. -/
theorem c2_exception_escapes_counterexample :
    (split_segments tokW sentTokE analyzeE nlpZeroV showVI libZero
        "ab cd ef").isOk = false
    ∧ split_segments tokW sentTokE analyzeE nlpZeroV showVI libZero "ab cd ef"
      = Except.error PyErr.valueError
    ∧ (split_sentences sentTokE (sanetize "ab cd ef") 3).length < 5 := by
  exact ⟨rfl, rfl, by decide⟩

/-- C2 amended: for every input text that yields a non-empty Vocabulary and
whose sentence count is below the requested segment length 5, the optimizer's
insufficient-input ValueError is caught and `split_segments` returns the
records of exactly one segment containing all the sentences, with no
exception escaping. -/
theorem c2_small_input_one_segment (tok sentTok analyze : String → List String)
    (nlp : String → Vec) (showV : Vec → String) (lib : TextsplitLib)
    (text : String) (wv : List (String × Vec))
    (hemb : get_embeddings tok nlp showV (sanetize text) = Except.ok wv)
    (hwv : wv ≠ [])
    (hlen : (split_sentences sentTok (sanetize text) 3).length < 5) :
    split_segments tok sentTok analyze nlp showV lib text
      = Except.ok (assemble [split_sentences sentTok (sanetize text) 3])
    ∧ (assemble [split_sentences sentTok (sanetize text) 3]).map
        (fun r => r.sentence)
      = split_sentences sentTok (sanetize text) 3 := by
  constructor
  · have hnodup := get_embeddings_keys_nodup tok nlp showV (sanetize text) wv hemb
    have hse : get_sentence_embeddings analyze
        (split_sentences sentTok (sanetize text) 3) wv
        = Except.ok ((split_sentences sentTok (sanetize text) 3).map
            (sentVec analyze wv)) := by
      unfold get_sentence_embeddings
      rw [if_neg (by simpa using hwv), if_neg (not_not.2 hnodup)]
    have hmk : make_segments lib
        ((split_sentences sentTok (sanetize text) 3).map (sentVec analyze wv))
        (split_sentences sentTok (sanetize text) 3) 5 250 false
        = Except.error PyErr.valueError := by
      unfold make_segments get_penalty
      rw [if_neg (by rw [List.length_map]; omega)]
    simp only [split_segments, hemb, hse, hmk]
  · simpa using assemble_map_sentence [split_sentences sentTok (sanetize text) 3]

/-- C2 witness: a one-sentence text with a usable vocabulary; the caught
fallback returns the single segment of all sentences. -/
theorem c2_small_input_one_segment_witness :
    split_segments tokW sentTokE analyzeE nlpLen showVI libZero "ab cd ef"
      = Except.ok [SegRecord.mk 0 "ab cd ef"] := by
  exact ((c2_small_input_one_segment tokW sentTokE analyzeE nlpLen showVI libZero
    "ab cd ef" [("ab", [2]), ("cd", [2]), ("ef", [2])]
    (by decide) (by decide) (by decide)).1).trans (by decide)

/-- C4 counterexample: on empty passage text the pipeline does fail: the
token list is empty, so `get_embeddings` raises (pandas KeyError on the
missing column of an empty frame) and `split_segments` returns no records at
all, contradicting the claimed fallback to records with segment_id 0. -/
theorem c4_empty_text_counterexample :
    (split_segments tokW sentTokE analyzeE nlpLen showVI libZero "").isOk = false
    ∧ split_segments tokW sentTokE analyzeE nlpLen showVI libZero ""
      = Except.error PyErr.keyError :=
  ⟨rfl, rfl⟩

/-- C4 amended: for every passage whose text yields an empty Vocabulary the
pipeline fails instead of degrading gracefully: an empty token list makes
`get_embeddings` raise KeyError, and a non-empty token list whose vectors all
equal the sentinel makes the sentence vectorizer raise ValueError, which
escapes `split_segments` because it is raised before the try block. -/
theorem c4_empty_vocabulary_raises (tok sentTok analyze : String → List String)
    (nlp : String → Vec) (showV : Vec → String) (lib : TextsplitLib)
    (text : String)
    (h : (tok (sanetize text)).dedup = []
      ∨ ∀ t ∈ (tok (sanetize text)).dedup,
          showV (nlp t) = showV (nlp "hrgenbrmpf")) :
    split_segments tok sentTok analyze nlp showV lib text
      = Except.error (if (tok (sanetize text)).dedup = []
          then PyErr.keyError else PyErr.valueError) := by
  by_cases hnil : (tok (sanetize text)).dedup = []
  · rw [if_pos hnil]
    have hge : get_embeddings tok nlp showV (sanetize text)
        = Except.error PyErr.keyError := by
      unfold get_embeddings
      rw [if_pos (by simp [hnil])]
    simp only [split_segments, hge]
  · rw [if_neg hnil]
    rcases h with h | hall
    · exact absurd h hnil
    · have hge : get_embeddings tok nlp showV (sanetize text)
          = Except.ok [] := by
        unfold get_embeddings
        rw [if_neg (by simpa using hnil)]
        congr 1
        rw [List.filterMap_eq_nil_iff]
        intro t ht
        unfold _get_save_vector
        rw [if_neg (not_not.2 (hall t ht))]
        rfl
      have hse : get_sentence_embeddings analyze
          (split_sentences sentTok (sanetize text) 3) ([] : List (String × Vec))
          = Except.error PyErr.valueError := rfl
      simp only [split_segments, hge, hse]

/-- C4 witness: a non-empty text all of whose token vectors equal the
sentinel, making the empty-vocabulary ValueError escape. -/
theorem c4_empty_vocabulary_raises_witness :
    split_segments tokW sentTokE analyzeE nlpZeroV showVI libZero "ab"
      = Except.error PyErr.valueError := by
  exact (c4_empty_vocabulary_raises tokW sentTokE analyzeE nlpZeroV showVI
    libZero "ab" (Or.inr (by decide))).trans (by decide)

/-- C5: whenever the external optimizer returns sorted split indices within
range (the Segmentation contract of the data model), the sentences of the
records returned by `split_segments`, concatenated in output order, are
exactly the input sentence list, in original order, with nothing dropped,
duplicated or reordered; this covers both the optimizer path and the
insufficient-input fallback path. -/
theorem c5_coverage_invariant (tok sentTok analyze : String → List String)
    (nlp : String → Vec) (showV : Vec → String) (lib : TextsplitLib)
    (text : String) (ds : List SegRecord)
    (hch : ∀ vs p lim, List.Chain' (· ≤ ·) (lib.splitOpt vs p lim))
    (hle : ∀ vs p lim, ∀ x ∈ lib.splitOpt vs p lim, x ≤ vs.length)
    (hok : split_segments tok sentTok analyze nlp showV lib text
      = Except.ok ds) :
    ds.map (fun r => r.sentence) = split_sentences sentTok (sanetize text) 3 := by
  unfold split_segments at hok
  cases hemb : get_embeddings tok nlp showV (sanetize text) with
  | error e =>
    simp only [hemb] at hok
    exact Except.noConfusion hok
  | ok wv =>
    simp only [hemb] at hok
    cases hse : get_sentence_embeddings analyze
        (split_sentences sentTok (sanetize text) 3) wv with
    | error e =>
      simp only [hse] at hok
      exact Except.noConfusion hok
    | ok vs =>
      simp only [hse] at hok
      have hvs : vs = (split_sentences sentTok (sanetize text) 3).map
          (sentVec analyze wv) := by
        unfold get_sentence_embeddings at hse
        by_cases h1 : wv.isEmpty
        · rw [if_pos h1] at hse; simp at hse
        · rw [if_neg h1] at hse
          by_cases h2 : ¬ (wv.map Prod.fst).Nodup
          · rw [if_pos h2] at hse; simp at hse
          · rw [if_neg h2] at hse
            exact (Except.ok.inj hse).symm
      cases hmk : make_segments lib vs
          (split_sentences sentTok (sanetize text) 3) 5 250 false with
      | ok segs =>
        simp only [hmk] at hok
        have hds : ds = assemble segs := (Except.ok.inj hok).symm
        unfold make_segments at hmk
        cases hpen : get_penalty lib vs 5 with
        | error e =>
          simp only [hpen] at hmk
          exact Except.noConfusion hmk
        | ok pen =>
          simp only [hpen] at hmk
          rw [if_neg (by simp)] at hmk
          have hsegs : segs = get_segments
              (split_sentences sentTok (sanetize text) 3)
              (lib.splitOpt vs pen 250) := (Except.ok.inj hmk).symm
          rw [hds, hsegs, assemble_map_sentence]
          apply join_get_segments
          · exact hch vs pen 250
          · intro x hx
            have hx' := hle vs pen 250 x hx
            calc x ≤ vs.length := hx'
              _ = _ := by rw [hvs, List.length_map]
      | error e =>
        cases e with
        | valueError =>
          simp only [hmk] at hok
          have hds : ds = assemble [split_sentences sentTok (sanetize text) 3] :=
            (Except.ok.inj hok).symm
          rw [hds, assemble_map_sentence]
          simp
        | keyError =>
          simp only [hmk] at hok
          exact Except.noConfusion hok
        | typeError =>
          simp only [hmk] at hok
          exact Except.noConfusion hok

/-- C5 witness: a five-sentence text on which the optimizer (with no splits)
keeps everything in one segment; the record sentences equal the input
sentence list. -/
theorem c5_coverage_invariant_witness :
    ([SegRecord.mk 0 "ab cd ef", SegRecord.mk 1 "gh ij kl",
      SegRecord.mk 2 "qr st uv", SegRecord.mk 3 "aa bb cc",
      SegRecord.mk 4 "dd ee ff"].map (fun r => r.sentence))
      = split_sentences sentTokE
          (sanetize "ab cd ef!gh ij kl!qr st uv!aa bb cc!dd ee ff!") 3 := by
  exact c5_coverage_invariant tokW sentTokE analyzeE nlpLen showVI libZero
    "ab cd ef!gh ij kl!qr st uv!aa bb cc!dd ee ff!"
    [SegRecord.mk 0 "ab cd ef", SegRecord.mk 1 "gh ij kl",
     SegRecord.mk 2 "qr st uv", SegRecord.mk 3 "aa bb cc",
     SegRecord.mk 4 "dd ee ff"]
    (fun vs p lim => by simp [libZero])
    (fun vs p lim x hx => by simp [libZero] at hx)
    (by decide)
